import Mathlib

/-!
Verification of the request-orchestration, logging and CSV-export logic of a
customer-complaint-intake chat assistant (`app.py`).

The source is a Streamlit application.  The parts relevant to the claims are
embedded shallowly below:

* `limited_history` / `get_response_contents` — the context-window construction
  inside `get_response` (`app.py` lines 166-184): the last 6 entries of
  `st.session_state.chat_history`, converted to wire shape, with the new user
  prompt appended as a final `user` entry.
* `handler_payload` — what the chat-input handler (lines 229-239) actually
  sends: it appends the user turn to `chat_history` *before* invoking
  `get_response`.
* `retryLoop` / `get_response` — the retry loop (lines 192-217): up to 3
  attempts, `"429" in str(e)` classification, sleeps of 2/4/8 time units, and
  the three fixed fallback strings from the source.
* `log_conversation`, `reset_conversation` — the session-state operations on
  the log-record collection (lines 67-76 and 121-124).
* `encCSV` / `parseCSV` — the CSV export (`log_df.to_csv(index=False)`,
  line 136) modelled as standard RFC-4180-style minimal quoting, and a
  standard CSV reader used to state the round-trip property.

Remote calls are modelled by an oracle `Nat → ApiOutcome` giving the outcome
of each attempt; sleeps and call counts are recorded explicitly in the result.
-/

/-! ## Data model: turns and wire entries -/

/-- A conversation turn as stored in `st.session_state.chat_history`:
a `(role, text)` tuple, role being `"user"` or `"model"`. -/
abbrev Turn := String × String

/-- One entry of the `contents` list sent to the remote API:
`{"role": role, "parts": [{"text": text}]}`.  Each part is its text. -/
structure WireEntry where
  role : String
  parts : List String
deriving DecidableEq, Repr

/-- Conversion of a history turn to the wire shape, as done by the `for` loop
in `get_response` (`app.py` lines 174-178). -/
def toWire (t : Turn) : WireEntry := ⟨t.1, [t.2]⟩

/-- `st.session_state.chat_history[-6:]` (`app.py` line 171): the last 6
entries, or the whole list when it is shorter.  Python's `l[-6:]` equals
`l.drop (l.length - 6)` in both cases (`Nat` subtraction truncates at 0). -/
def limited_history (h : List Turn) : List Turn := h.drop (h.length - 6)

/-- The `contents` list built by `get_response` (`app.py` lines 166-184):
the converted `limited_history` followed by the new user prompt as a final
`user` entry. -/
def get_response_contents (history : List Turn) (user_prompt : String) : List WireEntry :=
  (limited_history history).map toWire ++ [⟨"user", [user_prompt]⟩]

/-- The payload actually sent when the chat-input handler runs
(`app.py` lines 229-239): the handler first appends `("user", prompt)` to
`chat_history` (line 232) and only then calls `get_response(prompt)`
(line 239), which reads the updated history. -/
def handler_payload (hist : List Turn) (prompt : String) : List WireEntry :=
  get_response_contents (hist ++ [("user", prompt)]) prompt

/-! ## The remote call and the retry loop -/

/-- Outcome of one remote `generate_content` call: a successful response text,
an `APIError` carrying an HTTP status and a message, or any other raised
exception (caught by the bare `except Exception` handler). -/
inductive ApiOutcome where
  | success (text : String)
  | apiError (status : Nat) (message : String)
  | otherError (message : String)
deriving DecidableEq, Repr

/-- Modelled from the spec: the remote client's `APIError` renders (`str(e)`)
as its HTTP status code followed by its message — the spec describes the error
as carrying "a distinguishable rate limited condition (HTTP 429 in the source
binding)" surfaced in the error's textual representation.  The client library
itself is not part of the repository. -/
def apiErrorStr (status : Nat) (message : String) : String :=
  toString status ++ " " ++ message

/-- `needle.isPrefixOf hay` for character lists, written out. -/
def listStartsWith : List Char → List Char → Bool
  | [], _ => true
  | _ :: _, [] => false
  | a :: as, b :: bs => a == b && listStartsWith as bs

/-- Python's substring test `needle in hay` on character lists. -/
def hasSubstr (needle : List Char) : List Char → Bool
  | [] => listStartsWith needle []
  | c :: rest => listStartsWith needle (c :: rest) || hasSubstr needle rest

/-- The source's retryability test (`app.py` line 206): `"429" in str(e)`,
a substring match on the error's textual representation. -/
def code_treats_as_rate_limited (status : Nat) (message : String) : Bool :=
  hasSubstr "429".data (apiErrorStr status message).data

/-- Modelled from the spec: whether an error genuinely signals rate limiting,
i.e. carries the HTTP 429 condition — the structured condition the spec says
the classification should be based on. -/
def signals_rate_limit (status : Nat) : Bool := status == 429

/-- Fallback returned after exhausting all retries (`app.py` line 217). -/
def rate_limit_fallback : String :=
  "죄송합니다. API 호출 한도를 초과하여 잠시 서비스를 이용하실 수 없습니다."

/-- Fallback returned for a non-429 `APIError` (`app.py` line 212). -/
def api_error_fallback : String :=
  "API 호출 중 오류가 발생했습니다. 잠시 후 다시 시도해 주세요."

/-- Fallback returned by the bare `except Exception` handler (`app.py`
line 215). -/
def unexpected_error_fallback : String :=
  "죄송합니다. 처리 중 오류가 발생했습니다."

/-- Observable result of one `get_response` invocation: the returned string,
how many remote calls were made, and the sleeps performed (in order, in time
units of `time.sleep`). -/
structure RunResult where
  text : String
  calls : Nat
  sleeps : List Nat
deriving DecidableEq, Repr

/-- The retry loop of `get_response` (`app.py` lines 192-217):
`for attempt in range(max_retries)` with `max_retries = 3`, initial
`retry_delay = 2` doubling after each rate-limited attempt.  `oracle n` is the
outcome of the call made on loop iteration `n`.  A successful call returns its
text; an `APIError` whose `str` contains `"429"` sleeps `delay` and continues;
any other `APIError` returns `api_error_fallback`; any other exception returns
`unexpected_error_fallback`; falling out of the loop returns
`rate_limit_fallback`. -/
def retryLoop (oracle : Nat → ApiOutcome) :
    Nat → Nat → Nat → Nat → List Nat → RunResult
  | _, 0, _, calls, sleeps => ⟨rate_limit_fallback, calls, sleeps⟩
  | attempt, n + 1, delay, calls, sleeps =>
    match oracle attempt with
    | .success t => ⟨t, calls + 1, sleeps⟩
    | .apiError st m =>
      if code_treats_as_rate_limited st m then
        retryLoop oracle (attempt + 1) n (delay * 2) (calls + 1) (sleeps ++ [delay])
      else ⟨api_error_fallback, calls + 1, sleeps⟩
    | .otherError _ => ⟨unexpected_error_fallback, calls + 1, sleeps⟩

/-- One `get_response` invocation viewed through its remote-call behaviour:
3 attempts maximum, initial delay 2, no calls or sleeps performed yet. -/
def get_response_run (oracle : Nat → ApiOutcome) : RunResult :=
  retryLoop oracle 0 3 2 0 []

/-! ## Session state: history, log records, reset -/

/-- One element of `st.session_state.log_records` (`app.py` lines 70-76). -/
structure LogRecord where
  session_id : String
  timestamp : String
  model : String
  user_message : String
  bot_response : String
deriving DecidableEq, Repr

/-- The per-session state relevant to the claims (`st.session_state`). -/
structure SessionState where
  session_id : String
  chat_history : List Turn
  log_records : List LogRecord
  logging_enabled : Bool
deriving DecidableEq, Repr

/-- `log_conversation` (`app.py` lines 67-76): appends one record, built from
the session id, the supplied timestamp (`time.strftime` result), the model
name and the two texts, to `st.session_state.log_records`. -/
def log_conversation (s : SessionState) (timestamp user_text bot_text model_name : String) :
    SessionState :=
  { s with log_records :=
      s.log_records ++ [⟨s.session_id, timestamp, model_name, user_text, bot_text⟩] }

/-- The reset-button handler (`app.py` lines 121-124): sets both
`chat_history` and `log_records` to `[]`. -/
def reset_conversation (s : SessionState) : SessionState :=
  { s with chat_history := [], log_records := [] }

/-! ## CSV export

`log_df.to_csv(index=False)` (`app.py` line 136) writes a header row followed
by one row per record, each line terminated by a newline, using standard
minimal CSV quoting: a field containing a comma, a double quote, or a line
break is wrapped in double quotes with embedded quotes doubled; other fields
are written verbatim.  `parseCSV` is the standard CSV reader used to state
the round-trip property. -/

/-- Whether minimal CSV quoting must quote this field. -/
def csvNeedsQuote (f : List Char) : Bool :=
  f.any fun c => c == ',' || c == '"' || c == '\n' || c == '\r'

/-- Double every double quote (the escaping applied inside a quoted field). -/
def escQuotes : List Char → List Char
  | [] => []
  | c :: cs => if c == '"' then '"' :: '"' :: escQuotes cs else c :: escQuotes cs

/-- Encode one CSV field with minimal quoting. -/
def encField (f : List Char) : List Char :=
  if csvNeedsQuote f then '"' :: (escQuotes f ++ ['"']) else f

/-- Encode one CSV row: fields joined by commas. -/
def encRow : List (List Char) → List Char
  | [] => []
  | [f] => encField f
  | f :: fs => encField f ++ ',' :: encRow fs

/-- Encode a CSV document: each row followed by a terminating newline, as
`to_csv` emits. -/
def encCSV : List (List (List Char)) → List Char
  | [] => []
  | r :: rs => encRow r ++ '\n' :: encCSV rs

/-- Input positions at which an unquoted field ends: end of input, or a comma
or newline (used to state the field-level round-trip lemmas). -/
def stopsBare : List Char → Bool
  | [] => true
  | c :: _ => c == ',' || c == '\n'

/-- Input positions at which a row ends: end of input or a newline. -/
def stopsRow : List Char → Bool
  | [] => true
  | c :: _ => c == '\n'

/-- Parse the inside of a quoted field, after the opening quote.  The flag
records whether the previous character was a quote whose meaning (escape or
close) is still undecided: a doubled quote stands for one quote character; a
lone closing quote ends the field.  Returns the field text and the rest of
the input, or `none` if the quoted field is unterminated. -/
def parseQuotedAux : Bool → List Char → Option (List Char × List Char)
  | false, [] => none
  | false, c :: rest =>
    if c == '"' then parseQuotedAux true rest
    else (parseQuotedAux false rest).map fun p => (c :: p.1, p.2)
  | true, [] => some ([], [])
  | true, c :: rest =>
    if c == '"' then (parseQuotedAux false rest).map fun p => ('"' :: p.1, p.2)
    else some ([], c :: rest)

/-- Parse the inside of a quoted field, after the opening quote. -/
def parseQuoted (cs : List Char) : Option (List Char × List Char) :=
  parseQuotedAux false cs

/-- Parse an unquoted field: everything up to the next comma or newline. -/
def parseBare : List Char → List Char × List Char
  | [] => ([], [])
  | c :: rest =>
    if c == ',' || c == '\n' then ([], c :: rest)
    else
      let p := parseBare rest
      (c :: p.1, p.2)

/-- Parse one CSV field (quoted or bare). -/
def parseField : List Char → Option (List Char × List Char)
  | [] => some ([], [])
  | c :: rest =>
    if c == '"' then parseQuoted rest
    else some (parseBare (c :: rest))

/-- Parse one CSV row: comma-separated fields; the terminating newline (or end
of input, or any unconsumed character) is left in the rest. -/
def parseRowAux : Nat → List Char → Option (List (List Char) × List Char)
  | 0, _ => none
  | fuel + 1, cs =>
    match parseField cs with
    | none => none
    | some (f, rest) =>
      match rest with
      | c :: rest2 =>
        if c == ',' then (parseRowAux fuel rest2).map fun p => (f :: p.1, p.2)
        else some ([f], c :: rest2)
      | [] => some ([f], [])

/-- Parse a CSV document: newline-terminated rows (a final row without a
trailing newline is also accepted). -/
def parseRecsAux : Nat → List Char → Option (List (List (List Char)))
  | 0, _ => none
  | fuel + 1, cs =>
    if cs.isEmpty then some []
    else
      match parseRowAux (fuel + 1) cs with
      | some (row, c :: rest) =>
        if c == '\n' then (parseRecsAux fuel rest).map fun rs => row :: rs
        else none
      | some (row, []) => some [row]
      | none => none

/-- Parse a CSV document (fuel instantiated so that it never runs out: each
row consumes at least its terminating newline). -/
def parseCSV (cs : List Char) : Option (List (List (List Char))) :=
  parseRecsAux (cs.length + 1) cs

/-- The CSV row of one log record, in the column order `to_csv` writes
(`session_id, timestamp, model, user_message, bot_response`). -/
def recordRow (r : LogRecord) : List (List Char) :=
  [r.session_id.data, r.timestamp.data, r.model.data, r.user_message.data, r.bot_response.data]

/-- The header row `to_csv` writes (the DataFrame's column names). -/
def headerRow : List (List Char) :=
  ["session_id".data, "timestamp".data, "model".data, "user_message".data, "bot_response".data]

/-- `log_df.to_csv(index=False)` on a non-empty record set: the header row
followed by one row per record, in append order. -/
def to_csv (logs : List LogRecord) : List Char :=
  encCSV (headerRow :: logs.map recordRow)

/-- Decode one CSV row back into a log record (the inverse of `recordRow`). -/
def rowToRecord : List (List Char) → Option LogRecord
  | [a, b, c, d, e] => some ⟨⟨a⟩, ⟨b⟩, ⟨c⟩, ⟨d⟩, ⟨e⟩⟩
  | _ => none

/-! ## Concrete inputs used by witnesses and counterexamples -/

/-- A 7-entry history (long enough that truncation drops its head). -/
def hist7 : List Turn :=
  [("user", "u1"), ("model", "b1"), ("user", "u2"), ("model", "b2"),
   ("user", "u3"), ("model", "b3"), ("user", "u4")]

/-- A 3-entry history (short enough that nothing is dropped). -/
def hist3 : List Turn := [("user", "u1"), ("model", "b1"), ("user", "u2")]

/-- Oracle for the witness of C4: 429 on attempts 1 and 2, success on 3. -/
def c4oracle : Nat → ApiOutcome := fun n =>
  if n = 0 then .apiError 429 "RESOURCE_EXHAUSTED"
  else if n = 1 then .apiError 429 "RESOURCE_EXHAUSTED"
  else .success "접수되었습니다"

/-- Oracle for the witness of C5: 429 on every attempt. -/
def c5oracle : Nat → ApiOutcome := fun _ => .apiError 429 "RESOURCE_EXHAUSTED"

/-- A concrete log record used by the C9 counterexample. -/
def c9record : LogRecord :=
  ⟨"sid-1", "2024-01-01 00:00:00", "gemini-2.5-flash", "배송이 늦어요", "불편을 드려 죄송합니다"⟩

/-- A concrete session state holding one log record. -/
def c9state : SessionState :=
  { session_id := "sid-1"
    chat_history := [("user", "배송이 늦어요"), ("model", "불편을 드려 죄송합니다")]
    log_records := [c9record]
    logging_enabled := true }

/-! ## Claims about the context window (C1 - C3) -/

/-- C1: for every history of length greater than 6 and every new user message,
the `contents` list `get_response` constructs equals exactly the last 6
entries of the history, in their original order, followed by the new message
as a final `user` entry; no earlier entry appears (the payload is *equal* to
the wire form of that 6-entry suffix plus the prompt). -/
theorem c1_context_is_last_six (h : List Turn) (p : String) (hlen : 6 < h.length) :
    ∃ earlier recent : List Turn,
      h = earlier ++ recent ∧ recent.length = 6 ∧ earlier.length = h.length - 6 ∧
      get_response_contents h p = recent.map toWire ++ [⟨"user", [p]⟩] := by
  refine ⟨h.take (h.length - 6), h.drop (h.length - 6), ?_, ?_, ?_, rfl⟩
  · exact (List.take_append_drop _ _).symm
  · rw [List.length_drop]; omega
  · rw [List.length_take]; omega

/-- Witness for C1 at a concrete 7-entry history. -/
theorem c1_witness :
    ∃ earlier recent : List Turn,
      hist7 = earlier ++ recent ∧ recent.length = 6 ∧ earlier.length = hist7.length - 6 ∧
      get_response_contents hist7 "환불은 언제 되나요" =
        recent.map toWire ++ [⟨"user", ["환불은 언제 되나요"]⟩] :=
  c1_context_is_last_six hist7 "환불은 언제 되나요" (by decide)

/-- C2: for every history of length at most 6 and every new user message, the
`contents` list `get_response` constructs equals the full history, in order,
followed by the new message as a final `user` entry. -/
theorem c2_context_full_history (h : List Turn) (p : String) (hlen : h.length ≤ 6) :
    get_response_contents h p = h.map toWire ++ [⟨"user", [p]⟩] := by
  unfold get_response_contents limited_history
  rw [Nat.sub_eq_zero_of_le hlen, List.drop_zero]

/-- Witness for C2 at a concrete 3-entry history. -/
theorem c2_witness :
    get_response_contents hist3 "환불은 언제 되나요" =
      hist3.map toWire ++ [⟨"user", ["환불은 언제 되나요"]⟩] :=
  c2_context_full_history hist3 "환불은 언제 되나요" (by decide)

/-- C3 (violated by the code): because the chat-input handler appends the user
turn to `chat_history` *before* invoking `get_response`, and `get_response`
slices the last 6 entries of that updated history and then appends the prompt
again, every submitted message occurs at least twice in the payload (it is
both the last entry of the history slice and the re-appended final entry) —
the claim that it appears exactly once fails for every submission. -/
theorem c3_prompt_sent_twice (hist : List Turn) (p : String) :
    2 ≤ (handler_payload hist p).count (WireEntry.mk "user" [p]) ∧
    (handler_payload hist p).getLast? = some (WireEntry.mk "user" [p]) := by
  constructor
  · have hn : (hist ++ [("user", p)]).length - 6 ≤ hist.length := by
      rw [List.length_append]; simp
    have hdrop : limited_history (hist ++ [("user", p)]) =
        hist.drop ((hist ++ [("user", p)]).length - 6) ++ [("user", p)] := by
      unfold limited_history
      exact List.drop_append_of_le_length hn
    have hmem : (WireEntry.mk "user" [p]) ∈
        (limited_history (hist ++ [("user", p)])).map toWire := by
      rw [hdrop]
      exact List.mem_map_of_mem toWire
        (List.mem_append_right _ (List.mem_singleton_self _))
    have h1 : 0 < ((limited_history (hist ++ [("user", p)])).map toWire).count
        (WireEntry.mk "user" [p]) := List.count_pos_iff.mpr hmem
    have h2 : List.count (WireEntry.mk "user" [p]) [WireEntry.mk "user" [p]] = 1 := by simp
    unfold handler_payload get_response_contents
    rw [List.count_append]
    omega
  · exact List.getLast?_concat _

/-! ## Claims about the retry loop (C4 - C8) -/

/-- A 429-status `APIError` always satisfies the source's substring check,
since its textual representation starts with the status code. -/
theorem retry_check_429 (m : String) : code_treats_as_rate_limited 429 m = true := by
  have h1 : apiErrorStr 429 m = "429 " ++ m := rfl
  have h2 : (apiErrorStr 429 m).data = '4' :: '2' :: '9' :: ' ' :: m.data := by
    rw [h1, String.data_append]
    rfl
  unfold code_treats_as_rate_limited
  rw [h2]
  simp [hasSubstr, listStartsWith]

/-- C4: when the remote call is rate limited (429) on attempts 1 and 2 and
succeeds on attempt 3, `get_response` returns the successful text, sleeps 2
then 4 time units between the attempts, and makes exactly 3 remote calls. -/
theorem c4_rate_limited_then_success (oracle : Nat → ApiOutcome) (m1 m2 t : String)
    (h0 : oracle 0 = ApiOutcome.apiError 429 m1)
    (h1 : oracle 1 = ApiOutcome.apiError 429 m2)
    (h2 : oracle 2 = ApiOutcome.success t) :
    get_response_run oracle = ⟨t, 3, [2, 4]⟩ := by
  simp [get_response_run, retryLoop, h0, h1, h2, retry_check_429]

/-- Witness for C4 at a concrete oracle. -/
theorem c4_witness : get_response_run c4oracle = ⟨"접수되었습니다", 3, [2, 4]⟩ :=
  c4_rate_limited_then_success c4oracle "RESOURCE_EXHAUSTED" "RESOURCE_EXHAUSTED"
    "접수되었습니다" rfl rfl rfl

/-- C5: when the remote call is rate limited (429) on all 3 attempts,
`get_response` returns the fixed rate-limit fallback string as a normal return
value and makes exactly 3 remote calls, no more. -/
theorem c5_all_attempts_rate_limited (oracle : Nat → ApiOutcome) (msgs : Nat → String)
    (h : ∀ n, n < 3 → oracle n = ApiOutcome.apiError 429 (msgs n)) :
    get_response_run oracle = ⟨rate_limit_fallback, 3, [2, 4, 8]⟩ := by
  have h0 := h 0 (by omega)
  have h1 := h 1 (by omega)
  have h2 := h 2 (by omega)
  simp [get_response_run, retryLoop, h0, h1, h2, retry_check_429]

/-- Witness for C5 at a concrete oracle. -/
theorem c5_witness : get_response_run c5oracle = ⟨rate_limit_fallback, 3, [2, 4, 8]⟩ :=
  c5_all_attempts_rate_limited c5oracle (fun _ => "RESOURCE_EXHAUSTED") (fun _ _ => rfl)

/-- C6 (violated by the code): when all three attempts are rate limited, the
loop body sleeps after *every* 429, including the third and final attempt —
the recorded sleeps are `[2, 4, 8]`, so an 8-time-unit backoff wait occurs
after attempt 3 before the fallback is returned, contrary to the claim that
no backoff happens after the final rate-limited attempt. -/
theorem c6_sleep_after_final_attempt :
    (get_response_run (fun _ => ApiOutcome.apiError 429 "Too Many Requests")).sleeps
      = [2, 4, 8] := by decide

/-- C7 counterexample: two different non-rate-limit failures of attempt 1 —
a non-429 `APIError` and an unexpected exception — both terminate after
exactly 1 call with no sleeps, but return *different* fixed fallback strings,
so there is no single fixed generic-error fallback string as claimed. -/
theorem c7_counterexample :
    get_response_run (fun _ => ApiOutcome.apiError 400 "INVALID_ARGUMENT")
      = ⟨api_error_fallback, 1, []⟩ ∧
    get_response_run (fun _ => ApiOutcome.otherError "connection reset")
      = ⟨unexpected_error_fallback, 1, []⟩ ∧
    api_error_fallback ≠ unexpected_error_fallback := by decide

/-- C7 amended: a non-rate-limit failure of attempt 1 terminates immediately
— exactly 1 remote call, no retries, no backoff sleeps — and returns a fixed
generic-error fallback string: one fixed string for `APIError`s that do not
pass the 429 check, and a second fixed string for any other exception. -/
theorem c7_generic_error_immediate (oracle : Nat → ApiOutcome) :
    (∀ st m, oracle 0 = ApiOutcome.apiError st m →
      code_treats_as_rate_limited st m = false →
      get_response_run oracle = ⟨api_error_fallback, 1, []⟩) ∧
    (∀ m, oracle 0 = ApiOutcome.otherError m →
      get_response_run oracle = ⟨unexpected_error_fallback, 1, []⟩) := by
  constructor
  · intro st m h0 hc
    simp [get_response_run, retryLoop, h0, hc]
  · intro m h0
    simp [get_response_run, retryLoop, h0]

/-- Witness for C7 (amended) at a concrete non-429 `APIError`. -/
theorem c7_witness :
    get_response_run (fun _ => ApiOutcome.apiError 403 "PERMISSION_DENIED")
      = ⟨api_error_fallback, 1, []⟩ :=
  (c7_generic_error_immediate (fun _ => ApiOutcome.apiError 403 "PERMISSION_DENIED")).1
    403 "PERMISSION_DENIED" rfl (by decide)

/-- C8 (violated by the code): retryability is decided by the substring test
`"429" in str(e)`, not by the structured rate-limit condition.  An `APIError`
with HTTP status 500 whose message merely mentions "4290" does not signal
rate limiting, yet the code classifies it as retryable and burns all three
attempts with backoff sleeps 2, 4, 8 before returning the *rate-limit*
fallback — instead of taking the non-retryable path immediately. -/
theorem c8_substring_misclassification :
    signals_rate_limit 500 = false ∧
    code_treats_as_rate_limited 500 "quota metric 4290 exceeded" = true ∧
    get_response_run (fun _ => ApiOutcome.apiError 500 "quota metric 4290 exceeded")
      = ⟨rate_limit_fallback, 3, [2, 4, 8]⟩ := by decide

/-! ## Claims about the log-record collection (C9) -/

/-- C9 counterexample: the reset-button handler does *not* leave existing log
records in place — a record present before the reset is gone afterwards, so
the collection is not append-only across all operations as claimed. -/
theorem c9_counterexample :
    c9record ∈ c9state.log_records ∧
    c9record ∉ (reset_conversation c9state).log_records := by decide

/-- C9 amended: logging a turn appends exactly one record, leaving every
existing record unchanged at its position, with the new record last; export
is a pure read of the collection; but the reset handler clears the collection
wholesale, removing all records.  No operation alters an individual record in
place; only reset removes records, and it removes all of them. -/
theorem c9_append_only_until_reset (s : SessionState) (ts u b m : String) :
    (log_conversation s ts u b m).log_records
      = s.log_records ++ [⟨s.session_id, ts, m, u, b⟩] ∧
    (∀ i, i < s.log_records.length →
      (log_conversation s ts u b m).log_records[i]? = s.log_records[i]?) ∧
    (log_conversation s ts u b m).log_records.getLast?
      = some ⟨s.session_id, ts, m, u, b⟩ ∧
    (reset_conversation s).log_records = [] := by
  refine ⟨rfl, ?_, ?_, rfl⟩
  · intro i hi
    exact List.getElem?_append_left hi
  · exact List.getLast?_concat _

/-- Witness for C9 (amended) at a concrete session state. -/
theorem c9_witness :
    (log_conversation c9state "2024-01-01 00:01:00" "사이즈 교환 문의"
        "안내드리겠습니다" "gemini-2.5-flash").log_records[0]?
      = c9state.log_records[0]? :=
  (c9_append_only_until_reset c9state "2024-01-01 00:01:00" "사이즈 교환 문의"
      "안내드리겠습니다" "gemini-2.5-flash").2.1 0 (by decide)

/-! ## CSV round trip (C10) -/

/-- Any stop position for a row is also a stop position for a bare field. -/
theorem stopsBare_of_stopsRow (r : List Char) (h : stopsRow r = true) :
    stopsBare r = true := by
  cases r with
  | nil => rfl
  | cons c t =>
    simp only [stopsRow] at h
    simp [stopsBare, h]

/-- Parsing a quoted field recovers the escaped text exactly, provided what
follows the closing quote does not itself start with a quote. -/
theorem parseQuoted_escQuotes (f r : List Char) (hr : r.head? ≠ some '"') :
    parseQuoted (escQuotes f ++ '"' :: r) = some (f, r) := by
  unfold parseQuoted
  induction f with
  | nil =>
    simp only [escQuotes, List.nil_append, parseQuotedAux, beq_self_eq_true, if_true]
    cases r with
    | nil => rfl
    | cons c' r' =>
      have hce : c' ≠ '"' := fun h => hr (by simp [List.head?, h])
      have hc : (c' == '"') = false := beq_eq_false_iff_ne.mpr hce
      simp [parseQuotedAux, hc]
  | cons c cs ih =>
    by_cases hc : c = '"'
    · subst hc
      simp [escQuotes, parseQuotedAux, ih]
    · have hcb : (c == '"') = false := beq_eq_false_iff_ne.mpr hc
      simp [escQuotes, hcb, parseQuotedAux, ih]

/-- Parsing a bare field consumes exactly the separator-free text. -/
theorem parseBare_append (f r : List Char)
    (hf : ∀ c ∈ f, (c == ',' || c == '\n') = false)
    (hr : stopsBare r = true) :
    parseBare (f ++ r) = (f, r) := by
  induction f with
  | nil =>
    cases r with
    | nil => rfl
    | cons c' r' =>
      simp only [stopsBare] at hr
      simp [parseBare, hr]
  | cons c cs ih =>
    have hc := hf c (List.mem_cons_self c cs)
    have ih' := ih (fun x hx => hf x (List.mem_cons_of_mem c hx))
    simp [parseBare, hc, ih']

/-- Field-level round trip: parsing an encoded field consumes exactly that
field whenever the rest begins with a separator (or is empty). -/
theorem parseField_encField (f r : List Char) (hr : stopsBare r = true) :
    parseField (encField f ++ r) = some (f, r) := by
  by_cases hq : csvNeedsQuote f = true
  · have hrq : r.head? ≠ some '"' := by
      cases r with
      | nil => simp
      | cons c' r' =>
        simp only [stopsBare] at hr
        intro hcon
        simp only [List.head?, Option.some.injEq] at hcon
        subst hcon
        simp at hr
    have henc : encField f ++ r = '"' :: (escQuotes f ++ '"' :: r) := by
      simp [encField, hq]
    rw [henc]
    simp only [parseField, beq_self_eq_true, if_true]
    exact parseQuoted_escQuotes f r hrq
  · have hnq : csvNeedsQuote f = false := by simpa using hq
    have hchars : ∀ c ∈ f, (c == ',' || c == '"' || c == '\n' || c == '\r') = false := by
      intro c hcf
      have := List.any_eq_false.mp hnq c hcf
      simpa using this
    have hseps : ∀ c ∈ f, (c == ',' || c == '\n') = false := by
      intro c hcf
      have h := hchars c hcf
      simp only [Bool.or_eq_false_iff] at h ⊢
      exact ⟨h.1.1.1, h.1.2⟩
    cases f with
    | nil =>
      simp only [encField, hnq, Bool.false_eq_true, if_false, List.nil_append]
      cases r with
      | nil => rfl
      | cons c' r' =>
        simp only [stopsBare] at hr
        have hcq : (c' == '"') = false := by
          rcases Bool.or_eq_true_iff.mp hr with h | h
          · rw [show c' = ',' from by simpa using h]; rfl
          · rw [show c' = '\n' from by simpa using h]; rfl
        simp [parseField, hcq, parseBare, hr]
    | cons c cs =>
      have hcq : (c == '"') = false := by
        have h := hchars c (List.mem_cons_self c cs)
        simp only [Bool.or_eq_false_iff] at h
        exact h.1.1.2
      simp only [encField, hnq, Bool.false_eq_true, if_false, List.cons_append]
      simp only [parseField, hcq, Bool.false_eq_true, if_false]
      rw [show c :: (cs ++ r) = (c :: cs) ++ r from rfl,
        parseBare_append (c :: cs) r hseps hr]

/-- Row-level round trip: parsing an encoded non-empty row consumes exactly
that row, given fuel at least the number of fields. -/
theorem parseRowAux_encRow (fs : List (List Char)) (r : List Char) (fuel : Nat)
    (hne : fs ≠ []) (hfuel : fs.length ≤ fuel) (hr : stopsRow r = true) :
    parseRowAux fuel (encRow fs ++ r) = some (fs, r) := by
  induction fs generalizing fuel with
  | nil => exact absurd rfl hne
  | cons f fs' ih =>
    cases fuel with
    | zero => simp at hfuel
    | succ n =>
      cases fs' with
      | nil =>
        simp only [encRow]
        simp only [parseRowAux, parseField_encField f r (stopsBare_of_stopsRow r hr)]
        cases r with
        | nil => rfl
        | cons c' r' =>
          have hc : (c' == ',') = false := by
            simp only [stopsRow] at hr
            rw [show c' = '\n' from by simpa using hr]; rfl
          simp [hc]
      | cons f2 t =>
        have henc : encRow (f :: f2 :: t) ++ r
            = encField f ++ ',' :: (encRow (f2 :: t) ++ r) := by
          show (encField f ++ ',' :: encRow (f2 :: t)) ++ r = _
          simp [List.append_assoc]
        rw [henc]
        simp only [parseRowAux,
          parseField_encField f (',' :: (encRow (f2 :: t) ++ r)) rfl,
          beq_self_eq_true, if_true]
        rw [ih n (by simp) (by simp only [List.length_cons] at hfuel ⊢; omega)]
        rfl

/-- Each field contributes at least one character (itself or its separator)
to the encoded row, except possibly the first. -/
theorem encRow_length (fs : List (List Char)) : fs.length ≤ (encRow fs).length + 1 := by
  induction fs with
  | nil => simp [encRow]
  | cons f fs' ih =>
    cases fs' with
    | nil => simp [encRow]
    | cons f2 t =>
      have henc : encRow (f :: f2 :: t) = encField f ++ ',' :: encRow (f2 :: t) := rfl
      rw [henc]
      simp only [List.length_cons, List.length_append] at ih ⊢
      omega

/-- Document-level round trip: parsing an encoded CSV document recovers the
rows exactly, for any fuel exceeding the document length. -/
theorem parseRecsAux_encCSV (rows : List (List (List Char))) (fuel : Nat)
    (h2 : ∀ row ∈ rows, row ≠ []) (hfuel : (encCSV rows).length + 1 ≤ fuel) :
    parseRecsAux fuel (encCSV rows) = some rows := by
  induction rows generalizing fuel with
  | nil =>
    cases fuel with
    | zero => omega
    | succ n => rfl
  | cons row rest ih =>
    cases fuel with
    | zero => omega
    | succ n =>
      have henc : encCSV (row :: rest) = encRow row ++ '\n' :: encCSV rest := rfl
      rw [henc] at hfuel ⊢
      have hlen : (encRow row ++ '\n' :: encCSV rest).length
          = (encRow row).length + ((encCSV rest).length + 1) := by
        simp [List.length_append]
      have hrow : parseRowAux (n + 1) (encRow row ++ '\n' :: encCSV rest)
          = some (row, '\n' :: encCSV rest) :=
        parseRowAux_encRow row ('\n' :: encCSV rest) (n + 1)
          (h2 row (List.mem_cons_self row rest))
          (by have := encRow_length row; rw [hlen] at hfuel; omega)
          rfl
      have hne2 : ¬((encRow row ++ '\n' :: encCSV rest).isEmpty = true) := by
        simp
      simp only [parseRecsAux, if_neg hne2, hrow, beq_self_eq_true, if_true]
      rw [ih n (fun x hx => h2 x (List.mem_cons_of_mem row hx))
        (by rw [hlen] at hfuel; omega)]
      rfl

/-- Round trip of the CSV encoder and the standard CSV reader, for any
document whose rows all have at least one field. -/
theorem parseCSV_encCSV (rows : List (List (List Char)))
    (h2 : ∀ row ∈ rows, row ≠ []) :
    parseCSV (encCSV rows) = some rows :=
  parseRecsAux_encCSV rows ((encCSV rows).length + 1) h2 (Nat.le_refl _)

/-- C10: for every list of log records — including records whose texts embed
commas, quotes and newlines — decoding the exported CSV yields exactly the
header row and one row per record, in append order, and converting each row
back yields the original record verbatim. -/
theorem c10_csv_roundtrip (logs : List LogRecord) :
    parseCSV (to_csv logs) = some (headerRow :: logs.map recordRow) ∧
    (logs.map recordRow).mapM rowToRecord = some logs := by
  constructor
  · apply parseCSV_encCSV
    intro row hrow
    rcases List.mem_cons.mp hrow with h | h
    · subst h; simp [headerRow]
    · rcases List.mem_map.mp h with ⟨rec, _, hrec⟩
      subst hrec; simp [recordRow]
  · induction logs with
    | nil => rfl
    | cons rec t ih =>
      simp only [List.map_cons, List.mapM_cons, ih]
      rfl
